import Mathlib

/-
Verification of the stock-emotion analytics pipeline (`app.py`).

The Python source manipulates pandas/numpy float series.  The embedding
models an IEEE-style float as `PyFloat`: a finite value carries an exact
rational (the claims under verification concern threshold bands, NaN/inf
propagation and algebraic identities, not rounding), and `nan`, `pinf`,
`ninf` model the non-finite values.  pandas missing-data conventions
(`isna`, `notnull`, skip-NaN reductions) are modelled on `PyFloat`
following the pandas semantics the source relies on.
-/

namespace StockEmotion

/-- Model of a Python/numpy double: exact rational for finite values plus
the three non-finite values.  Rounding is not modelled. -/
inductive PyFloat where
  | fin : ℚ → PyFloat
  | nan : PyFloat
  | pinf : PyFloat
  | ninf : PyFloat
deriving DecidableEq

/-- Model of `pd.isna` on a scalar float: true exactly on NaN. -/
def pd_isna : PyFloat → Bool
  | .nan => true
  | _ => false

/-- Model of `pd.notnull` on a scalar float: false exactly on NaN
(infinities are NOT null for pandas). -/
def pd_notnull (x : PyFloat) : Bool := !(pd_isna x)

/-- IEEE negation. -/
def pfNeg : PyFloat → PyFloat
  | .fin a => .fin (-a)
  | .nan => .nan
  | .pinf => .ninf
  | .ninf => .pinf

/-- IEEE addition (exact on finite values). -/
def pfAdd : PyFloat → PyFloat → PyFloat
  | .fin a, .fin b => .fin (a + b)
  | .nan, _ => .nan
  | _, .nan => .nan
  | .pinf, .ninf => .nan
  | .ninf, .pinf => .nan
  | .pinf, _ => .pinf
  | _, .pinf => .pinf
  | .ninf, _ => .ninf
  | _, .ninf => .ninf

/-- IEEE subtraction. -/
def pfSub (a b : PyFloat) : PyFloat := pfAdd a (pfNeg b)

/-- IEEE multiplication (exact on finite values). -/
def pfMul : PyFloat → PyFloat → PyFloat
  | .fin a, .fin b => .fin (a * b)
  | .nan, _ => .nan
  | _, .nan => .nan
  | .pinf, .pinf => .pinf
  | .pinf, .ninf => .ninf
  | .ninf, .pinf => .ninf
  | .ninf, .ninf => .pinf
  | .pinf, .fin b => if 0 < b then .pinf else if b < 0 then .ninf else .nan
  | .fin a, .pinf => if 0 < a then .pinf else if a < 0 then .ninf else .nan
  | .ninf, .fin b => if 0 < b then .ninf else if b < 0 then .pinf else .nan
  | .fin a, .ninf => if 0 < a then .ninf else if a < 0 then .pinf else .nan

/-- Numpy-style division: a finite value divided by zero gives a signed
infinity (0/0 gives NaN); no exception is raised. -/
def pfDiv : PyFloat → PyFloat → PyFloat
  | .nan, _ => .nan
  | _, .nan => .nan
  | .fin a, .fin b =>
      if b = 0 then (if a = 0 then .nan else if 0 < a then .pinf else .ninf)
      else .fin (a / b)
  | .fin _, .pinf => .fin 0
  | .fin _, .ninf => .fin 0
  | .pinf, .fin b => if 0 ≤ b then .pinf else .ninf
  | .ninf, .fin b => if 0 ≤ b then .ninf else .pinf
  | .pinf, _ => .nan
  | .ninf, _ => .nan

/-- IEEE strict order: any comparison with NaN is false. -/
def pfLt : PyFloat → PyFloat → Bool
  | .fin a, .fin b => decide (a < b)
  | .fin _, .pinf => true
  | .fin _, _ => false
  | .ninf, .nan => false
  | .ninf, .ninf => false
  | .ninf, _ => true
  | _, _ => false

/-- IEEE non-strict order: any comparison with NaN is false. -/
def pfLe : PyFloat → PyFloat → Bool
  | .fin a, .fin b => decide (a ≤ b)
  | .fin _, .pinf => true
  | .fin _, _ => false
  | .pinf, .pinf => true
  | .pinf, _ => false
  | .ninf, .nan => false
  | .ninf, _ => true
  | .nan, _ => false

/-- Finiteness test (true exactly on `fin`). -/
def pf_isFinite : PyFloat → Bool
  | .fin _ => true
  | _ => false

/-- Skip-NaN binary maximum, as used by pandas reductions. -/
def pfMax2 : PyFloat → PyFloat → PyFloat
  | .fin a, .fin b => .fin (max a b)
  | .nan, x => x
  | x, .nan => x
  | .pinf, _ => .pinf
  | _, .pinf => .pinf
  | .ninf, x => x
  | x, .ninf => x

/-- Skip-NaN binary minimum, as used by pandas reductions. -/
def pfMin2 : PyFloat → PyFloat → PyFloat
  | .fin a, .fin b => .fin (min a b)
  | .nan, x => x
  | x, .nan => x
  | .ninf, _ => .ninf
  | _, .ninf => .ninf
  | .pinf, x => x
  | x, .pinf => x

/-- Keys of `EMOTION_MAPPING` in source (dict insertion) order; the 9
declared emotion categories. -/
def EMOTION_KEYS : List String :=
  ["anger", "depression", "sad", "confusion", "neutral", "optimism",
   "amusement", "excitement", "surprise"]

/-- The fixed `COMPANIES` symbol whitelist from the source. -/
def COMPANIES : List String :=
  ["NVDA", "AAPL", "ABNB", "AMT", "AMZN", "BA", "BABA", "BAC", "BKNG",
   "BRK-A", "BRK-B", "CCL", "CVX", "DIS", "META", "GOOG", "GOOGL", "HD",
   "JNJ", "JPM", "KO", "LOW", "MA", "MCD", "MSFT", "NFLX", "NKE", "PFE",
   "PG", "PYPL", "SBUX", "TM", "TSLA", "TSM", "UNH", "UPS", "V", "WMT",
   "XOM"]

/-- Embedding of `assign_emotion` (app.py lines 37-61): NaN maps to
neutral, otherwise the fractional return is scaled by 100 and pushed
through the threshold chain, mirroring the Python `if`/`elif` chain
(Python chained comparisons `a < x <= b` become a conjunction). -/
def assign_emotion (change : PyFloat) : String :=
  if pd_isna change then "neutral"
  else
    let change := pfMul change (.fin 100)
    if pfLe change (.fin (-8)) then "anger"
    else if pfLt (.fin (-8)) change && pfLe change (.fin (-4)) then "depression"
    else if pfLt (.fin (-4)) change && pfLe change (.fin (-1)) then "sad"
    else if pfLt (.fin (-1)) change && pfLe change (.fin 1) then "neutral"
    else if pfLt (.fin 1) change && pfLe change (.fin 4) then "optimism"
    else if pfLt (.fin 4) change && pfLe change (.fin 8) then "amusement"
    else if pfLt (.fin 8) change && pfLe change (.fin 15) then "excitement"
    else if pfLt (.fin 15) change then "surprise"
    else "neutral"

/-- Modelled from the spec: the index of the threshold band (over the
percent value) a real number falls in, per the closed-upper/open-lower
table of section 4.4 of the spec. -/
def bandIndex (p : ℚ) : Fin 8 :=
  if p ≤ -8 then 0
  else if p ≤ -4 then 1
  else if p ≤ -1 then 2
  else if p ≤ 1 then 3
  else if p ≤ 4 then 4
  else if p ≤ 8 then 5
  else if p ≤ 15 then 6
  else 7

/-- Modelled from the spec: the emotion label of each threshold band. -/
def bandName : Fin 8 → String
  | 0 => "anger"
  | 1 => "depression"
  | 2 => "sad"
  | 3 => "neutral"
  | 4 => "optimism"
  | 5 => "amusement"
  | 6 => "excitement"
  | 7 => "surprise"

/-- Modelled from the spec: membership of a percent value in each of the
8 bands, written exactly as the interval table of the spec. -/
def bandMem : Fin 8 → ℚ → Prop
  | 0, p => p ≤ -8
  | 1, p => -8 < p ∧ p ≤ -4
  | 2, p => -4 < p ∧ p ≤ -1
  | 3, p => -1 < p ∧ p ≤ 1
  | 4, p => 1 < p ∧ p ≤ 4
  | 5, p => 4 < p ∧ p ≤ 8
  | 6, p => 8 < p ∧ p ≤ 15
  | 7, p => 15 < p

/-- Reduction of `assign_emotion` on a finite input to a rational
threshold chain. -/
lemma assign_emotion_fin (q : ℚ) :
    assign_emotion (.fin q) =
      (if q * 100 ≤ -8 then "anger"
       else if -8 < q * 100 ∧ q * 100 ≤ -4 then "depression"
       else if -4 < q * 100 ∧ q * 100 ≤ -1 then "sad"
       else if -1 < q * 100 ∧ q * 100 ≤ 1 then "neutral"
       else if 1 < q * 100 ∧ q * 100 ≤ 4 then "optimism"
       else if 4 < q * 100 ∧ q * 100 ≤ 8 then "amusement"
       else if 8 < q * 100 ∧ q * 100 ≤ 15 then "excitement"
       else if 15 < q * 100 then "surprise"
       else "neutral") := by
  simp only [assign_emotion, pd_isna, pfMul, pfLe, pfLt, Bool.and_eq_true,
    decide_eq_true_eq, Bool.false_eq_true, if_false]

/-- C1: `assign_emotion` is total (it is a Lean function), maps NaN to
neutral, and on every finite return maps per the spec's threshold table
(return scaled by 100); the 8 bands cover every rational with no overlap
(every percent value lies in the band `bandIndex` selects, and in no
other), each boundary deciding per the closed-upper/open-lower rule. -/
theorem assign_emotion_threshold_bands :
    assign_emotion PyFloat.nan = "neutral"
    ∧ (∀ r : ℚ, assign_emotion (.fin r) = bandName (bandIndex (r * 100)))
    ∧ (∀ p : ℚ, bandMem (bandIndex p) p)
    ∧ (∀ p : ℚ, ∀ i : Fin 8, bandMem i p → i = bandIndex p) := by
  refine ⟨rfl, ?_, ?_, ?_⟩
  · intro r
    rw [assign_emotion_fin]
    by_cases h1 : r * 100 ≤ -8
    · simp [bandIndex, bandName, h1]
    by_cases h2 : r * 100 ≤ -4
    · simp [bandIndex, bandName, h1, h2, not_le.mp h1]
    by_cases h3 : r * 100 ≤ -1
    · simp [bandIndex, bandName, h1, h2, h3, not_le.mp h2]
    by_cases h4 : r * 100 ≤ 1
    · simp [bandIndex, bandName, h1, h2, h3, h4, not_le.mp h3]
    by_cases h5 : r * 100 ≤ 4
    · simp [bandIndex, bandName, h1, h2, h3, h4, h5, not_le.mp h4]
    by_cases h6 : r * 100 ≤ 8
    · simp [bandIndex, bandName, h1, h2, h3, h4, h5, h6, not_le.mp h5]
    by_cases h7 : r * 100 ≤ 15
    · simp [bandIndex, bandName, h1, h2, h3, h4, h5, h6, h7, not_le.mp h6]
    · simp [bandIndex, bandName, h1, h2, h3, h4, h5, h6, h7, not_le.mp h7]
  · intro p
    by_cases h1 : p ≤ -8
    · simp [bandIndex, bandMem, h1]
    by_cases h2 : p ≤ -4
    · simp [bandIndex, bandMem, h1, h2, not_le.mp h1]
    by_cases h3 : p ≤ -1
    · simp [bandIndex, bandMem, h1, h2, h3, not_le.mp h2]
    by_cases h4 : p ≤ 1
    · simp [bandIndex, bandMem, h1, h2, h3, h4, not_le.mp h3]
    by_cases h5 : p ≤ 4
    · simp [bandIndex, bandMem, h1, h2, h3, h4, h5, not_le.mp h4]
    by_cases h6 : p ≤ 8
    · simp [bandIndex, bandMem, h1, h2, h3, h4, h5, h6, not_le.mp h5]
    by_cases h7 : p ≤ 15
    · simp [bandIndex, bandMem, h1, h2, h3, h4, h5, h6, h7, not_le.mp h6]
    · simp [bandIndex, bandMem, h1, h2, h3, h4, h5, h6, h7, not_le.mp h7]
  · intro p i h
    fin_cases i
    · simp only [bandMem] at h
      simp [bandIndex, h]
    · simp only [bandMem] at h
      simp [bandIndex, h.2, show ¬ p ≤ -8 by linarith [h.1]]
    · simp only [bandMem] at h
      simp [bandIndex, h.2, show ¬ p ≤ -8 by linarith [h.1],
        show ¬ p ≤ -4 by linarith [h.1]]
    · simp only [bandMem] at h
      simp [bandIndex, h.2, show ¬ p ≤ -8 by linarith [h.1],
        show ¬ p ≤ -4 by linarith [h.1], show ¬ p ≤ -1 by linarith [h.1]]
    · simp only [bandMem] at h
      simp [bandIndex, h.2, show ¬ p ≤ -8 by linarith [h.1],
        show ¬ p ≤ -4 by linarith [h.1], show ¬ p ≤ -1 by linarith [h.1],
        show ¬ p ≤ 1 by linarith [h.1]]
    · simp only [bandMem] at h
      simp [bandIndex, h.2, show ¬ p ≤ -8 by linarith [h.1],
        show ¬ p ≤ -4 by linarith [h.1], show ¬ p ≤ -1 by linarith [h.1],
        show ¬ p ≤ 1 by linarith [h.1], show ¬ p ≤ 4 by linarith [h.1]]
    · simp only [bandMem] at h
      simp [bandIndex, h.2, show ¬ p ≤ -8 by linarith [h.1],
        show ¬ p ≤ -4 by linarith [h.1], show ¬ p ≤ -1 by linarith [h.1],
        show ¬ p ≤ 1 by linarith [h.1], show ¬ p ≤ 4 by linarith [h.1],
        show ¬ p ≤ 8 by linarith [h.1]]
    · simp only [bandMem] at h
      simp [bandIndex, show ¬ p ≤ -8 by linarith, show ¬ p ≤ -4 by linarith,
        show ¬ p ≤ -1 by linarith, show ¬ p ≤ 1 by linarith,
        show ¬ p ≤ 4 by linarith, show ¬ p ≤ 8 by linarith,
        show ¬ p ≤ 15 by linarith]

/-- Witness for C1: instantiated at the boundary value -4 percent
(return -0.04), which the closed-upper rule puts in the depression
band. -/
theorem assign_emotion_threshold_bands_witness :
    (1 : Fin 8) = bandIndex (-4) :=
  assign_emotion_threshold_bands.2.2.2 (-4) 1 (by norm_num [bandMem])

/-- One fetched OHLCV bar: the external data source (yfinance) delivers a
row per trading period, indexed by a timestamp (modelled as a day
number). -/
structure Bar where
  ts : ℕ
  Open : ℚ
  High : ℚ
  Low : ℚ
  Close : ℚ
  Volume : ℚ
deriving DecidableEq

/-- One bar after resampling: pandas aggregation can produce NaN price
fields (empty bucket), so fields are `PyFloat`. -/
structure RBar where
  Open : PyFloat
  High : PyFloat
  Low : PyFloat
  Close : PyFloat
  Volume : PyFloat
deriving DecidableEq

/-- Lift a raw fetched bar to the float-valued row type. -/
def barToRBar (b : Bar) : RBar :=
  ⟨.fin b.Open, .fin b.High, .fin b.Low, .fin b.Close, .fin b.Volume⟩

/-- Aggregation of one resampling bucket, following the `agg` dict of
`resample_data`: open = first, high = max, low = min, close = last,
volume = sum.  An empty bucket aggregates (pandas semantics) to NaN for
first/max/min/last and 0 for sum. -/
def bucketAgg : List Bar → RBar
  | [] => ⟨.nan, .nan, .nan, .nan, .fin 0⟩
  | x :: xs =>
      { Open := .fin x.Open
        High := .fin (xs.foldl (fun m y => max m y.High) x.High)
        Low := .fin (xs.foldl (fun m y => min m y.Low) x.Low)
        Close := .fin ((xs.foldl (fun _ y => y) x).Close)
        Volume := .fin (xs.foldl (fun s y => s + y.Volume) x.Volume) }

/-- Model of `df.resample(rule).agg(...)`: pandas lays a dense period
grid from the first bar's period to the last bar's period and aggregates
the bars falling in each period; periods are modelled by a bucket-index
function on timestamps. -/
def resample_agg (bucketOf : ℕ → ℕ) : List Bar → List RBar
  | [] => []
  | b :: rest =>
      let df := b :: rest
      let lo := bucketOf b.ts
      let hi := bucketOf ((df.getLast?).getD b).ts
      (List.range (hi - lo + 1)).map
        (fun k => bucketAgg (df.filter (fun x => bucketOf x.ts = lo + k)))

/-- Embedding of `resample_data` (app.py lines 103-118): weekly buckets
for 5Y/10Y, monthly buckets for MAX, input passed through unchanged for
every other range code.  Calendar weeks/months are modelled as
fixed-width bucket indices on the day-number timestamp. -/
def resample_data (df : List Bar) (time_range : String) : List RBar :=
  if time_range = "5Y" ∨ time_range = "10Y" then
    resample_agg (fun t => t / 7) df
  else if time_range = "MAX" then
    resample_agg (fun t => t / 30) df
  else df.map barToRBar

/-- Model of `Series.pct_change` without fill: first entry NaN, then
`x[i]/x[i-1] - 1` (the counterexamples and theorems below only exercise
inputs where pandas' deprecated pad-filling is a no-op). -/
def pctAux (prev : PyFloat) : List PyFloat → List PyFloat
  | [] => []
  | x :: rest => pfSub (pfDiv x prev) (.fin 1) :: pctAux x rest

/-- Model of `df['Close'].pct_change()`. -/
def pct_change : List PyFloat → List PyFloat
  | [] => []
  | x :: rest => .nan :: pctAux x rest

/-- Model of `Series.dropna`: keep the non-NaN entries. -/
def dropna (xs : List PyFloat) : List PyFloat :=
  xs.filter (fun x => pd_notnull x)

/-- Sum of a float series (pandas reductions skip NaN before this is
applied). -/
def pfSum (xs : List PyFloat) : PyFloat := xs.foldl pfAdd (.fin 0)

/-- Model of `Series.mean` (skipna): NaN on an all-NaN/empty series. -/
def series_mean (xs : List PyFloat) : PyFloat :=
  let v := dropna xs
  if v.isEmpty then .nan else pfDiv (pfSum v) (.fin v.length)

/-- Model of `Series.max` (skipna). -/
def series_max (xs : List PyFloat) : PyFloat :=
  match dropna xs with
  | [] => .nan
  | h :: t => t.foldl pfMax2 h

/-- Model of `Series.min` (skipna). -/
def series_min (xs : List PyFloat) : PyFloat :=
  match dropna xs with
  | [] => .nan
  | h :: t => t.foldl pfMin2 h

/-- Model of the pandas sample variance (ddof = 1, skipna): NaN when
fewer than two non-NaN entries. -/
def series_var (xs : List PyFloat) : PyFloat :=
  let v := dropna xs
  if v.length < 2 then .nan
  else
    let m := series_mean xs
    pfDiv (pfSum (v.map (fun x => pfMul (pfSub x m) (pfSub x m))))
      (.fin (v.length - 1 : ℕ))

/-- Square root on the float model; the exact square root on rationals
is not representable, so the finite case defers to an injected function
(instantiated with concrete models in theorems). -/
def pfSqrt (sqrtf : ℚ → ℚ) : PyFloat → PyFloat
  | .fin q => if q < 0 then .nan else .fin (sqrtf q)
  | .pinf => .pinf
  | _ => .nan

/-- Model of `Series.std` (ddof = 1): square root of the sample
variance. -/
def series_std (sqrtf : ℚ → ℚ) (xs : List PyFloat) : PyFloat :=
  pfSqrt sqrtf (series_var xs)

/-- Embedding of `calculate_max_drawdown` (app.py lines 133-137):
`df['Close'].expanding().max()` is the skip-NaN running maximum. -/
def expanding_max (acc : PyFloat) : List PyFloat → List PyFloat
  | [] => []
  | x :: rest =>
      let m := if pd_isna x then acc
               else if pd_isna acc then x else pfMax2 acc x
      m :: expanding_max m rest

/-- Embedding of `calculate_max_drawdown`: drawdown at each bar is
`(close - running_max) / running_max`; the result is the series
minimum. -/
def calculate_max_drawdown (closes : List PyFloat) : PyFloat :=
  let rolling_max := expanding_max .nan closes
  let drawdown := List.zipWith (fun c m => pfDiv (pfSub c m) m) closes rolling_max
  series_min drawdown

/-- Embedding of `calculate_sharpe_ratio` (app.py lines 139-143):
`np.sqrt(252) * excess_returns.mean() / returns.std()` with
`excess_returns = returns - risk_free_rate/252`.  `sqrtf` injects the
square root (see `pfSqrt`). -/
def calculate_sharpe_ratio (sqrtf : ℚ → ℚ) (risk_free_rate : ℚ)
    (dfReturns : List PyFloat) : PyFloat :=
  let returns := dropna dfReturns
  let excess_returns := returns.map (fun r => pfSub r (.fin (risk_free_rate / 252)))
  pfDiv (pfMul (.fin (sqrtf 252)) (series_mean excess_returns))
    (series_std sqrtf returns)

/-- Embedding of `calculate_beta` (app.py lines 145-153): the pipeline
never supplies a market series, so the `None` branch returns 1.0. -/
def calculate_beta (dfReturns : List PyFloat) : PyFloat := .fin 1

/-- Embedding of `calculate_additional_statistics` (app.py lines
120-131), keyed exactly as the Python dict. -/
def calculate_additional_statistics (sqrtf : ℚ → ℚ) (df : List RBar)
    (dfReturns : List PyFloat) : List (String × PyFloat) :=
  [("all_time_high", series_max (df.map (·.High))),
   ("all_time_low", series_min (df.map (·.Low))),
   ("avg_daily_volume", series_mean (df.map (·.Volume))),
   ("volatility", pfMul (series_std sqrtf dfReturns) (.fin (sqrtf 252))),
   ("max_drawdown", calculate_max_drawdown (df.map (·.Close))),
   ("sharpe_ratio", calculate_sharpe_ratio sqrtf (2 / 100) dfReturns),
   ("beta", calculate_beta dfReturns),
   ("trading_days", .fin (df.length : ℚ))]

/-- Index of an emotion key in the source's dict order (used to number
the random draws of one bar). -/
def keyIndex (e : String) : ℕ := EMOTION_KEYS.indexOf e

/-- Embedding of `prepare_emotion_data` (app.py lines 82-101): one
intensity series per declared emotion; the bar's active emotion draws
`np.random.uniform(0.7, 1.0)`, every other emotion draws
`np.random.uniform(0.0, 0.2)`.  The random source is injected as
`uniform bar key lo hi`, one call site per (bar, emotion) pair exactly
as the Python double loop. -/
def prepare_emotion_data (uniform : ℕ → ℕ → ℚ → ℚ → ℚ)
    (emotions : List String) : List (String × List ℚ) :=
  EMOTION_KEYS.map (fun e =>
    (e, emotions.enum.map (fun p =>
      if e = p.2 then uniform p.1 (keyIndex e) (7/10) 1
      else uniform p.1 (keyIndex e) 0 (1/5))))

/-- Embedding of `clean_nan` (app.py lines 276-279): `float(x) if
pd.notnull(x) else None` — NaN becomes `none`; finite values AND
infinities (not null for pandas) pass through. -/
def clean_nan (data : List PyFloat) : List (Option PyFloat) :=
  data.map (fun x => if pd_notnull x then some x else none)

/-- Model of `Series.value_counts().to_dict()`: occurrence count per
distinct label (dict key order is not load-bearing for any claim). -/
def value_counts (xs : List String) : List (String × ℕ) :=
  xs.dedup.map (fun k => (k, xs.count k))

/-- The keys of `time_range_config` (app.py lines 161-222). -/
def rangeKeys : List String :=
  ["1D", "1W", "2W", "1M", "3M", "6M", "1Y", "2Y", "5Y", "10Y", "MAX", "YTD"]

/-- The `valid_ranges` list of the route handler (app.py line 343). -/
def valid_ranges : List String :=
  ["1D", "1W", "2W", "1M", "3M", "6M", "1Y", "2Y", "5Y", "10Y", "YTD", "MAX"]

/-- The ranges for which `process_stock_data` computes the statistics
bundle (app.py line 272). -/
def longRanges : List String := ["1Y", "2Y", "5Y", "10Y", "MAX"]

/-- The seven indicator series the external `ta` library derives from
the close series; the library is outside the repository, so the bundle
is an injected input of the pipeline model. -/
structure IndicatorBundle where
  RSI : List PyFloat
  MACD : List PyFloat
  MACD_Signal : List PyFloat
  MACD_Hist : List PyFloat
  BB_Upper : List PyFloat
  BB_Middle : List PyFloat
  BB_Lower : List PyFloat

/-- The assembled response bundle (app.py lines 281-315).  The date
axis is shared by every series in the source; its string formatting
(strftime) carries no claim and is not modelled.  `statistics` holds the
raw float dict exactly as the source stores it (NOT passed through
`clean_nan`). -/
structure ResponseData where
  prices_open : List (Option PyFloat)
  prices_high : List (Option PyFloat)
  prices_low : List (Option PyFloat)
  prices_close : List (Option PyFloat)
  emotionData : List (String × List (Option PyFloat))
  volume_values : List (Option PyFloat)
  volume_colors : List String
  rsi : List (Option PyFloat)
  macd_line : List (Option PyFloat)
  macd_signal : List (Option PyFloat)
  macd_histogram : List (Option PyFloat)
  bb_upper : List (Option PyFloat)
  bb_middle : List (Option PyFloat)
  bb_lower : List (Option PyFloat)
  emotion_distribution : List (String × ℕ)
  statistics : List (String × PyFloat)

/-- Outcome of `process_stock_data`: `failure msg` models the
`{'success': False, 'error': msg}` payload, `ok` the success bundle with
`'success': True`. -/
inductive ProcessResult where
  | failure : String → ProcessResult
  | ok : ResponseData → ProcessResult
deriving Inhabited

/-- Embedding of `process_stock_data` (app.py lines 155-320).  External
effects are injected: `df` is the series the data source returned for
the request, `sqrtf`/`uniform` model numpy, `ind` models the `ta`
indicator library.  Mirrors the source's order: range-config lookup
(unknown range raises, caught as a failure), empty-fetch check,
resampling for 5Y/10Y/MAX, indicators, returns, emotions, intensity
matrix, volume colors, gated statistics, then assembly with `clean_nan`
on every series (and on nothing else). -/
def process_stock_data (sqrtf : ℚ → ℚ) (uniform : ℕ → ℕ → ℚ → ℚ → ℚ)
    (ind : List PyFloat → IndicatorBundle) (company time_range : String)
    (df : List Bar) : ProcessResult :=
  if time_range ∉ rangeKeys then
    .failure ("Invalid time range: " ++ time_range)
  else if df.isEmpty then
    .failure ("No data available for " ++ company ++ " in the specified time range")
  else
    let rdf : List RBar :=
      if time_range = "5Y" ∨ time_range = "10Y" ∨ time_range = "MAX" then
        resample_data df time_range
      else df.map barToRBar
    let closes := rdf.map (·.Close)
    let indicators := ind closes
    let dfReturns := pct_change closes
    let emotions := dfReturns.map assign_emotion
    let emotion_data := prepare_emotion_data uniform emotions
    let volume_colors :=
      List.zipWith (fun c o => if pfLt o c then "#26a69a" else "#ef5350")
        closes (rdf.map (·.Open))
    let additional_stats :=
      if time_range ∈ longRanges then
        calculate_additional_statistics sqrtf rdf dfReturns
      else []
    .ok
      { prices_open := clean_nan (rdf.map (·.Open))
        prices_high := clean_nan (rdf.map (·.High))
        prices_low := clean_nan (rdf.map (·.Low))
        prices_close := clean_nan closes
        emotionData := emotion_data.map (fun p => (p.1, clean_nan (p.2.map .fin)))
        volume_values := clean_nan (rdf.map (·.Volume))
        volume_colors := volume_colors
        rsi := clean_nan indicators.RSI
        macd_line := clean_nan indicators.MACD
        macd_signal := clean_nan indicators.MACD_Signal
        macd_histogram := clean_nan indicators.MACD_Hist
        bb_upper := clean_nan indicators.BB_Upper
        bb_middle := clean_nan indicators.BB_Middle
        bb_lower := clean_nan indicators.BB_Lower
        emotion_distribution := value_counts emotions
        statistics := additional_stats }

/-- Embedding of the `get_stock_data` route (app.py lines 330-362):
symbol whitelist check, then range whitelist check (both answered with
HTTP 400 before the fetch — the model takes the would-be fetch result
`df` as a parameter, and the validation theorems hold for every `df`),
then the pipeline; a pipeline failure is returned with status 400, a
success with 200.  The `range` query parameter arrives already
defaulted to `'1M'` by `request.args.get`. -/
def get_stock_data (sqrtf : ℚ → ℚ) (uniform : ℕ → ℕ → ℚ → ℚ → ℚ)
    (ind : List PyFloat → IndicatorBundle) (company time_range : String)
    (df : List Bar) : ℕ × ProcessResult :=
  if company ∉ COMPANIES then
    (400, .failure "Invalid company symbol")
  else if time_range ∉ valid_ranges then
    (400, .failure ("Invalid time range. Must be one of: "
      ++ String.intercalate ", " valid_ranges))
  else
    match process_stock_data sqrtf uniform ind company time_range df with
    | .failure e => (400, .failure e)
    | .ok r => (200, .ok r)

/-- Statistics of a pipeline outcome ([] on failure payloads, which
carry no statistics key). -/
def getStats : ProcessResult → List (String × PyFloat)
  | .failure _ => []
  | .ok r => r.statistics

/-- Concrete square-root model used by witnesses (only its values at 0
and 252 matter there). -/
def sqId : ℚ → ℚ := fun q => q

/-- Concrete sampler model used by witnesses: always returns the lower
bound of the requested interval. -/
def u0 : ℕ → ℕ → ℚ → ℚ → ℚ := fun _ _ a _ => a

/-- Concrete indicator model used by witnesses. -/
def ind0 : List PyFloat → IndicatorBundle := fun _ => ⟨[], [], [], [], [], [], []⟩

/-- Three bars with constant close price 1: the return series has zero
standard deviation. -/
def dfConst : List Bar := [⟨0, 1, 1, 1, 1, 1⟩, ⟨1, 1, 1, 1, 1, 1⟩, ⟨2, 1, 1, 1, 1, 1⟩]

/-- Three bars with constant close price 5 (same degenerate shape at a
different price level). -/
def dfConst2 : List Bar := [⟨0, 5, 5, 5, 5, 2⟩, ⟨1, 5, 5, 5, 5, 2⟩, ⟨2, 5, 5, 5, 5, 2⟩]

/-- C7: the route rejects a symbol outside the whitelist, and a range
code outside the 12 recognized ones, each with a 400 client failure; the
result does not depend on `df` (the would-be fetch result), i.e. no
fetch outcome can influence it, and in particular range "XYZ" makes an
invalid-range failure for every whitelisted symbol. -/
theorem route_rejects_invalid_input :
    (∀ sqrtf uniform ind company time_range df,
       company ∉ COMPANIES →
       get_stock_data sqrtf uniform ind company time_range df
         = (400, .failure "Invalid company symbol"))
    ∧ (∀ sqrtf uniform ind company time_range df,
       time_range ∉ valid_ranges →
       get_stock_data sqrtf uniform ind company time_range df
         = (400, .failure "Invalid company symbol")
       ∨ get_stock_data sqrtf uniform ind company time_range df
         = (400, .failure ("Invalid time range. Must be one of: "
             ++ String.intercalate ", " valid_ranges)))
    ∧ (∀ sqrtf uniform ind company df,
       company ∈ COMPANIES →
       get_stock_data sqrtf uniform ind company "XYZ" df
         = (400, .failure ("Invalid time range. Must be one of: "
             ++ String.intercalate ", " valid_ranges))) := by
  refine ⟨?_, ?_, ?_⟩
  · intro sqrtf uniform ind company time_range df h
    simp [get_stock_data, h]
  · intro sqrtf uniform ind company time_range df h
    by_cases hc : company ∈ COMPANIES
    · right
      simp [get_stock_data, hc, h]
    · left
      simp [get_stock_data, hc]
  · intro sqrtf uniform ind company df h
    have : "XYZ" ∉ valid_ranges := by decide
    simp [get_stock_data, h, this]

/-- Witness for C7: an unknown symbol is rejected with the invalid
symbol failure regardless of fetch data. -/
theorem route_rejects_invalid_input_witness :
    get_stock_data sqId u0 ind0 "ZZZZ" "1M" []
      = (400, .failure "Invalid company symbol") :=
  route_rejects_invalid_input.1 sqId u0 ind0 "ZZZZ" "1M" [] (by decide)

/-- C8: when the data source returns an empty series for any symbol and
any recognized range code, the pipeline returns the structured
no-data failure whose message names the requested symbol (it does not
propagate a source or transport error). -/
theorem empty_fetch_is_no_data_failure :
    ∀ sqrtf uniform ind company time_range,
      time_range ∈ rangeKeys →
      process_stock_data sqrtf uniform ind company time_range []
        = .failure ("No data available for " ++ company
            ++ " in the specified time range") := by
  intro sqrtf uniform ind company time_range h
  simp [process_stock_data, h]

/-- Witness for C8 at symbol AAPL and range 6M. -/
theorem empty_fetch_is_no_data_failure_witness :
    process_stock_data sqId u0 ind0 "AAPL" "6M" []
      = .failure ("No data available for " ++ "AAPL"
          ++ " in the specified time range") :=
  empty_fetch_is_no_data_failure sqId u0 ind0 "AAPL" "6M" (by decide)

/-- The statistics-bearing ranges are all recognized range-config keys. -/
lemma longRanges_sub_rangeKeys : ∀ t ∈ longRanges, t ∈ rangeKeys := by decide

/-- C6: the statistics bundle of the response carries exactly the eight
statistics when the range is one of 1Y/2Y/5Y/10Y/MAX (and the fetch was
non-empty, so a response exists), and is empty for every other range
code. -/
theorem statistics_gated_on_long_ranges :
    ∀ sqrtf uniform ind company time_range df,
      (time_range ∈ longRanges → df ≠ [] →
        (getStats (process_stock_data sqrtf uniform ind company time_range df)).map
            Prod.fst
          = ["all_time_high", "all_time_low", "avg_daily_volume", "volatility",
             "max_drawdown", "sharpe_ratio", "beta", "trading_days"])
      ∧ (time_range ∉ longRanges →
        getStats (process_stock_data sqrtf uniform ind company time_range df)
          = []) := by
  intro sqrtf uniform ind company time_range df
  constructor
  · intro hl hdf
    rw [process_stock_data]
    rw [if_neg (not_not_intro (longRanges_sub_rangeKeys _ hl))]
    rw [if_neg (by simpa [List.isEmpty_iff] using hdf)]
    simp [getStats, hl, calculate_additional_statistics]
  · intro hl
    rw [process_stock_data]
    by_cases h1 : time_range ∉ rangeKeys
    · rw [if_pos h1]; rfl
    rw [if_neg h1]
    by_cases h2 : df.isEmpty
    · rw [if_pos h2]; rfl
    rw [if_neg h2]
    simp [getStats, hl]

/-- Witness for C6: statistics present (with the eight keys) at range
1Y, empty statistics at range 1M, on the same non-empty fetch. -/
theorem statistics_gated_on_long_ranges_witness :
    (getStats (process_stock_data sqId u0 ind0 "AAPL" "1Y" dfConst)).map Prod.fst
      = ["all_time_high", "all_time_low", "avg_daily_volume", "volatility",
         "max_drawdown", "sharpe_ratio", "beta", "trading_days"]
    ∧ getStats (process_stock_data sqId u0 ind0 "AAPL" "1M" dfConst) = [] :=
  ⟨(statistics_gated_on_long_ranges sqId u0 ind0 "AAPL" "1Y" dfConst).1
      (by decide) (by decide),
   (statistics_gated_on_long_ranges sqId u0 ind0 "AAPL" "1M" dfConst).2
      (by decide)⟩

/-- A series is NaN-free after sanitization. -/
def listNoNan (xs : List (Option PyFloat)) : Prop :=
  ∀ x ∈ xs, x ≠ some PyFloat.nan

/-- `clean_nan` never lets a NaN through. -/
lemma clean_nan_noNan (xs : List PyFloat) : listNoNan (clean_nan xs) := by
  intro x hx
  rw [clean_nan, List.mem_map] at hx
  obtain ⟨a, _, rfl⟩ := hx
  cases a <;> simp [pd_notnull, pd_isna]

/-- NaN-freeness of every sanitized series of an assembled response
(trivially true of failure payloads, which carry no series). -/
def respSeriesNoNan : ProcessResult → Prop
  | .failure _ => True
  | .ok r =>
      listNoNan r.prices_open ∧ listNoNan r.prices_high
      ∧ listNoNan r.prices_low ∧ listNoNan r.prices_close
      ∧ (∀ p ∈ r.emotionData, listNoNan p.2)
      ∧ listNoNan r.volume_values
      ∧ listNoNan r.rsi ∧ listNoNan r.macd_line ∧ listNoNan r.macd_signal
      ∧ listNoNan r.macd_histogram ∧ listNoNan r.bb_upper
      ∧ listNoNan r.bb_middle ∧ listNoNan r.bb_lower

/-- C2 (amended): every numeric series of the assembled response
(prices, emotion intensities, volume values, all seven indicator
series) is passed through `clean_nan`, so none of them contains a NaN
after assembly.  (The `statistics` scalars are NOT sanitized and
infinities survive `clean_nan`; see the counterexample.) -/
theorem response_series_sanitized :
    ∀ sqrtf uniform ind company time_range df,
      respSeriesNoNan (process_stock_data sqrtf uniform ind company time_range df) := by
  intro sqrtf uniform ind company time_range df
  rw [process_stock_data]
  by_cases h1 : time_range ∉ rangeKeys
  · rw [if_pos h1]; trivial
  rw [if_neg h1]
  by_cases h2 : df.isEmpty
  · rw [if_pos h2]; trivial
  rw [if_neg h2]
  simp only [respSeriesNoNan]
  refine ⟨clean_nan_noNan _, clean_nan_noNan _, clean_nan_noNan _,
    clean_nan_noNan _, ?_, clean_nan_noNan _, clean_nan_noNan _,
    clean_nan_noNan _, clean_nan_noNan _, clean_nan_noNan _,
    clean_nan_noNan _, clean_nan_noNan _, clean_nan_noNan _⟩
  intro p hp
  rw [List.mem_map] at hp
  obtain ⟨q, _, rfl⟩ := hp
  exact clean_nan_noNan _

/-- The close column of the constant-price fixtures. -/
lemma dfConst_closes :
    (dfConst.map barToRBar).map (·.Close) = [PyFloat.fin 1, .fin 1, .fin 1] := rfl

/-- Percent change of a constant close series: NaN then zeros. -/
lemma pct_change_ones :
    pct_change [PyFloat.fin 1, .fin 1, .fin 1] = [.nan, .fin 0, .fin 0] := by
  norm_num [pct_change, pctAux, pfDiv, pfSub, pfAdd, pfNeg]

/-- The Sharpe ratio of the all-zero return series at the default
risk-free rate: the numerator is -1/50, the standard deviation is 0, so
numpy division yields -inf. -/
lemma sharpe_zero_returns :
    calculate_sharpe_ratio sqId (2 / 100) [PyFloat.nan, .fin 0, .fin 0] = .ninf := by
  norm_num [calculate_sharpe_ratio, sqId, dropna, pd_notnull, pd_isna,
    series_mean, series_std, series_var, pfSqrt, pfSum, pfAdd, pfNeg, pfSub,
    pfMul, pfDiv, List.filter_cons]

/-- Counterexample to C2 as stated: a constant close series at range 1Y
makes the Sharpe ratio -inf, and that infinite value appears verbatim
in the assembled response's statistics — the response does contain a
non-finite value, because `statistics` is never passed through
`clean_nan` and `pd.notnull` lets infinities through. -/
theorem response_contains_nonfinite :
    ("sharpe_ratio", PyFloat.ninf)
      ∈ getStats (process_stock_data sqId u0 ind0 "AAPL" "1Y" dfConst) := by
  rw [process_stock_data]
  rw [if_neg (not_not_intro (by decide : ("1Y" : String) ∈ rangeKeys))]
  rw [if_neg (by decide : ¬ (dfConst.isEmpty = true))]
  simp only [getStats, calculate_additional_statistics]
  have hr : (if ("1Y" : String) = "5Y" ∨ ("1Y" : String) = "10Y"
      ∨ ("1Y" : String) = "MAX" then resample_data dfConst "1Y"
      else dfConst.map barToRBar) = dfConst.map barToRBar := by
    rw [if_neg (by decide)]
  rw [hr, if_pos (by decide : ("1Y" : String) ∈ longRanges)]
  rw [dfConst_closes, pct_change_ones, sharpe_zero_returns]
  simp

/-- Every division by float zero is non-finite (NaN or a signed
infinity). -/
lemma pfDiv_fin_zero_not_finite (x : PyFloat) :
    pf_isFinite (pfDiv x (.fin 0)) = false := by
  cases x <;> simp [pfDiv, pf_isFinite] <;> split_ifs <;> rfl

/-- C4 (amended): the Sharpe ratio is `sqrt 252 * mean(excess) /
std(returns)` with excess `returns - rf/252`; whenever the return
standard deviation is zero (zero sample variance) the result is
non-finite; and the statistics bundle stores the Sharpe value raw, at
the default annual risk-free rate 0.02 (it is NOT sanitized to null —
see the counterexample for the value surviving into the response). -/
theorem sharpe_zero_std_nonfinite :
    (∀ (sqrtf : ℚ → ℚ) (rf : ℚ) (rets : List PyFloat),
       sqrtf 0 = 0 →
       series_var (dropna rets) = .fin 0 →
       pf_isFinite (calculate_sharpe_ratio sqrtf rf rets) = false)
    ∧ (∀ (sqrtf : ℚ → ℚ) (df : List RBar) (rets : List PyFloat),
       ("sharpe_ratio", calculate_sharpe_ratio sqrtf (2 / 100) rets)
         ∈ calculate_additional_statistics sqrtf df rets) := by
  constructor
  · intro sqrtf rf rets h0 hv
    rw [calculate_sharpe_ratio, series_std, hv]
    simp only [pfSqrt, lt_self_iff_false, if_false, h0]
    exact pfDiv_fin_zero_not_finite _
  · intro sqrtf df rets
    simp [calculate_additional_statistics]

/-- Sample variance of two equal returns is zero. -/
lemma var_zero_returns :
    series_var (dropna [PyFloat.fin 0, .fin 0]) = .fin 0 := by
  norm_num [series_var, series_mean, dropna, pd_notnull, pd_isna, pfSum,
    pfAdd, pfNeg, pfSub, pfMul, pfDiv, List.filter_cons]

/-- Witness for C4: two equal returns have zero standard deviation and
a non-finite Sharpe ratio. -/
theorem sharpe_zero_std_nonfinite_witness :
    pf_isFinite (calculate_sharpe_ratio sqId (1 / 50) [.fin 0, .fin 0]) = false :=
  sharpe_zero_std_nonfinite.1 sqId (1 / 50) [.fin 0, .fin 0] rfl var_zero_returns

/-- The close column of the second constant-price fixture. -/
lemma dfConst2_closes :
    (dfConst2.map barToRBar).map (·.Close) = [PyFloat.fin 5, .fin 5, .fin 5] := rfl

/-- Percent change of the constant close series at price 5. -/
lemma pct_change_fives :
    pct_change [PyFloat.fin 5, .fin 5, .fin 5] = [.nan, .fin 0, .fin 0] := by
  norm_num [pct_change, pctAux, pfDiv, pfSub, pfAdd, pfNeg]

/-- Counterexample to C4 as stated: at range 2Y on a constant close
series, the zero-variance Sharpe ratio is -inf and the assembled
response returns it raw in `statistics` — it is not sanitized to
null. -/
theorem sharpe_unsanitized_in_response :
    ("sharpe_ratio", PyFloat.ninf)
      ∈ getStats (process_stock_data sqId u0 ind0 "MSFT" "2Y" dfConst2) := by
  rw [process_stock_data]
  rw [if_neg (not_not_intro (by decide : ("2Y" : String) ∈ rangeKeys))]
  rw [if_neg (by decide : ¬ (dfConst2.isEmpty = true))]
  simp only [getStats, calculate_additional_statistics]
  have hr : (if ("2Y" : String) = "5Y" ∨ ("2Y" : String) = "10Y"
      ∨ ("2Y" : String) = "MAX" then resample_data dfConst2 "2Y"
      else dfConst2.map barToRBar) = dfConst2.map barToRBar := by
    rw [if_neg (by decide)]
  rw [hr, if_pos (by decide : ("2Y" : String) ∈ longRanges)]
  rw [dfConst2_closes, pct_change_fives, sharpe_zero_returns]
  simp

/-- Shape of a member of the intensity matrix: its key is a declared
emotion and its series is the per-bar draw list. -/
lemma prepare_mem_shape (uniform : ℕ → ℕ → ℚ → ℚ → ℚ)
    (emotions : List String) (e : String) (series : List ℚ)
    (h : (e, series) ∈ prepare_emotion_data uniform emotions) :
    e ∈ EMOTION_KEYS ∧
      series = emotions.enum.map (fun p =>
        if e = p.2 then uniform p.1 (keyIndex e) (7/10) 1
        else uniform p.1 (keyIndex e) 0 (1/5)) := by
  rw [prepare_emotion_data, List.mem_map] at h
  obtain ⟨a, ha, heq⟩ := h
  cases heq
  exact ⟨ha, rfl⟩

/-- C9: whenever the injected sampler is a genuine uniform sampler
(returns a value in [lo, hi) as `np.random.uniform` does), every
intensity drawn for a bar's active emotion lies in [0.7, 1.0] and every
intensity drawn for an inactive emotion lies in [0.0, 0.2]; the two
bands are disjoint (0.2 < 0.7), so an inactive draw can never reach the
active band. -/
theorem prepare_emotion_data_intensity_bands :
    ∀ (uniform : ℕ → ℕ → ℚ → ℚ → ℚ),
      (∀ i k a b, a < b → a ≤ uniform i k a b ∧ uniform i k a b < b) →
      ∀ (emotions : List String) (e : String) (series : List ℚ),
        (e, series) ∈ prepare_emotion_data uniform emotions →
        series.length = emotions.length ∧
          ∀ (i : ℕ) (hi : i < emotions.length),
            (e = emotions[i] →
              7/10 ≤ series.getD i 0 ∧ series.getD i 0 ≤ 1) ∧
            (e ≠ emotions[i] →
              0 ≤ series.getD i 0 ∧ series.getD i 0 ≤ 1/5) := by
  intro uniform hu emotions e series hmem
  obtain ⟨-, hs⟩ := prepare_mem_shape uniform emotions e series hmem
  subst hs
  refine ⟨by simp, ?_⟩
  intro i hi
  have hi' : i < (emotions.enum.map (fun p =>
      if e = p.2 then uniform p.1 (keyIndex e) (7/10) 1
      else uniform p.1 (keyIndex e) 0 (1/5))).length := by
    simpa using hi
  rw [List.getD_eq_getElem _ _ hi', List.getElem_map, List.getElem_enum]
  constructor
  · intro hact
    rw [if_pos hact]
    have h := hu i (keyIndex e) (7/10) 1 (by norm_num)
    exact ⟨h.1, le_of_lt h.2⟩
  · intro hne
    rw [if_neg hne]
    have h := hu i (keyIndex e) 0 (1/5) (by norm_num)
    exact ⟨h.1, le_of_lt h.2⟩

/-- Witness for C9: with the lower-bound sampler, the single bar's
active (neutral) intensity is 0.7, inside the active band. -/
theorem prepare_emotion_data_intensity_bands_witness :
    7/10 ≤ ([(7 : ℚ)/10].getD 0 0) ∧ ([(7 : ℚ)/10].getD 0 0) ≤ 1 :=
  ((prepare_emotion_data_intensity_bands u0
      (fun _ _ a _ h => ⟨le_refl a, h⟩) ["neutral"] "neutral" [7/10]
      (by rw [prepare_emotion_data]
          exact List.mem_map.mpr ⟨"neutral", by decide, rfl⟩)).2
    0 (by norm_num)).1 rfl

/-- `assign_emotion` never produces the label of the declared
confusion category. -/
lemma assign_emotion_ne_confusion : ∀ c : PyFloat, assign_emotion c ≠ "confusion" := by
  intro c
  cases c with
  | fin r => rw [assign_emotion_fin]; split_ifs <;> decide
  | nan => decide
  | pinf => decide
  | ninf => decide

/-- The key column of an emotion-frequency count is the deduplicated
label list. -/
lemma value_counts_keys (xs : List String) :
    (value_counts xs).map Prod.fst = xs.dedup := by
  rw [value_counts, List.map_map]
  exact List.map_id _

/-- C10: `assign_emotion` never returns "confusion" although
"confusion" is one of the 9 declared emotion categories; hence no
emotion-distribution key is ever "confusion", while the intensity
matrix still carries a confusion series whose every entry is an
inactive-band (`uniform 0 0.2`) draw. -/
theorem confusion_never_assigned :
    (∀ c : PyFloat, assign_emotion c ≠ "confusion")
    ∧ "confusion" ∈ EMOTION_KEYS
    ∧ (∀ rets : List PyFloat,
        "confusion" ∉ (value_counts (rets.map assign_emotion)).map Prod.fst)
    ∧ (∀ (uniform : ℕ → ℕ → ℚ → ℚ → ℚ) (rets : List PyFloat)
        (series : List ℚ),
        ("confusion", series)
          ∈ prepare_emotion_data uniform (rets.map assign_emotion) →
        ∀ (i : ℕ), i < series.length →
          series.getD i 0 = uniform i 3 0 (1/5)) := by
  refine ⟨assign_emotion_ne_confusion, by decide, ?_, ?_⟩
  · intro rets h
    rw [value_counts_keys] at h
    obtain ⟨r, -, hr⟩ := List.mem_map.mp (List.mem_dedup.mp h)
    exact assign_emotion_ne_confusion r hr
  · intro uniform rets series hmem i hi
    obtain ⟨-, hs⟩ :=
      prepare_mem_shape uniform (rets.map assign_emotion) "confusion" series hmem
    subst hs
    rw [List.getD_eq_getElem _ _ hi, List.getElem_map, List.getElem_enum]
    have hi2 : i < (rets.map assign_emotion).length := by simpa using hi
    have hne : "confusion" ≠ (rets.map assign_emotion)[i] := by
      rw [List.getElem_map]
      exact fun hc => assign_emotion_ne_confusion _ hc.symm
    rw [if_neg hne]
    exact rfl

/-- Witness for C10: for a one-bar series (NaN return, hence a neutral
bar), the confusion intensity series consists of the inactive draw. -/
theorem confusion_never_assigned_witness :
    [(0 : ℚ)].getD 0 0 = u0 0 3 0 (1/5) :=
  confusion_never_assigned.2.2.2 u0 [PyFloat.nan] [(0 : ℚ)]
    (by rw [prepare_emotion_data]
        exact List.mem_map.mpr ⟨"confusion", by decide, rfl⟩)
    0 (by norm_num)

/-- A left max-fold lands on its seed or on a list element. -/
lemma foldl_max_mem (a : ℚ) (l : List ℚ) :
    l.foldl max a = a ∨ l.foldl max a ∈ l := by
  induction l generalizing a with
  | nil => exact Or.inl rfl
  | cons x t ih =>
    rcases ih (max a x) with h | h
    · rcases max_cases a x with ⟨h2, -⟩ | ⟨h2, -⟩
      · exact Or.inl (h.trans h2)
      · exact Or.inr (by rw [List.foldl_cons, h, h2]; exact List.mem_cons_self x t)
    · exact Or.inr (List.mem_cons_of_mem x h)

/-- A left max-fold bounds its seed and every list element from above. -/
lemma le_foldl_max (a : ℚ) (l : List ℚ) :
    a ≤ l.foldl max a ∧ ∀ y ∈ l, y ≤ l.foldl max a := by
  induction l generalizing a with
  | nil => exact ⟨le_rfl, by simp⟩
  | cons x t ih =>
    obtain ⟨h1, h2⟩ := ih (max a x)
    refine ⟨le_trans (le_max_left a x) h1, ?_⟩
    intro y hy
    rcases List.mem_cons.mp hy with rfl | hy
    · exact le_trans (le_max_right a y) h1
    · exact h2 y hy

/-- A left min-fold lands on its seed or on a list element. -/
lemma foldl_min_mem (a : ℚ) (l : List ℚ) :
    l.foldl min a = a ∨ l.foldl min a ∈ l := by
  induction l generalizing a with
  | nil => exact Or.inl rfl
  | cons x t ih =>
    rcases ih (min a x) with h | h
    · rcases min_cases a x with ⟨h2, -⟩ | ⟨h2, -⟩
      · exact Or.inl (h.trans h2)
      · exact Or.inr (by rw [List.foldl_cons, h, h2]; exact List.mem_cons_self x t)
    · exact Or.inr (List.mem_cons_of_mem x h)

/-- A left min-fold bounds its seed and every list element from below. -/
lemma foldl_min_le (a : ℚ) (l : List ℚ) :
    l.foldl min a ≤ a ∧ ∀ y ∈ l, l.foldl min a ≤ y := by
  induction l generalizing a with
  | nil => exact ⟨le_rfl, by simp⟩
  | cons x t ih =>
    obtain ⟨h1, h2⟩ := ih (min a x)
    refine ⟨le_trans h1 (min_le_left a x), ?_⟩
    intro y hy
    rcases List.mem_cons.mp hy with rfl | hy
    · exact le_trans h1 (min_le_right a y)
    · exact h2 y hy

/-- The keep-last fold computes the last element. -/
lemma foldl_last_eq_getLast (x : Bar) (xs : List Bar) :
    xs.foldl (fun _ y => y) x = (x :: xs).getLast (List.cons_ne_nil x xs) := by
  induction xs generalizing x with
  | nil => rfl
  | cons y t ih =>
    show t.foldl (fun _ z => z) y = (x :: y :: t).getLast (List.cons_ne_nil _ _)
    rw [ih y, List.getLast_cons (List.cons_ne_nil y t)]

/-- A left add-fold is the seed plus the list sum. -/
lemma foldl_add_eq (a : ℚ) (l : List ℚ) : l.foldl (· + ·) a = a + l.sum := by
  induction l generalizing a with
  | nil => simp
  | cons x t ih => rw [List.foldl_cons, ih, List.sum_cons, add_assoc]

/-- C3 (amended): the resampler passes the series through unchanged for
every range other than 5Y/10Y/MAX; each output bucket of a resampled
series aggregates its bars by open = first bar's open, high = max high,
low = min low, close = last bar's close, volume = summed volume; and a
bucket with zero input bars still produces a row — with NaN price
fields and volume 0 (pandas emits the dense period grid), not no row. -/
theorem resample_semantics :
    (∀ (df : List Bar) (tr : String),
       tr ≠ "5Y" → tr ≠ "10Y" → tr ≠ "MAX" →
       resample_data df tr = df.map barToRBar)
    ∧ (∀ (bucketOf : ℕ → ℕ) (b : Bar) (rest : List Bar) (k : ℕ)
        (hk : k < (resample_agg bucketOf (b :: rest)).length),
        (resample_agg bucketOf (b :: rest)).getD k ⟨.nan, .nan, .nan, .nan, .fin 0⟩
          = bucketAgg ((b :: rest).filter
              (fun x => bucketOf x.ts = bucketOf b.ts + k)))
    ∧ (∀ (x : Bar) (xs : List Bar),
        (bucketAgg (x :: xs)).Open = .fin x.Open
        ∧ (∃ m : ℚ, (bucketAgg (x :: xs)).High = .fin m
            ∧ m ∈ (x :: xs).map (·.High) ∧ ∀ y ∈ (x :: xs).map (·.High), y ≤ m)
        ∧ (∃ m : ℚ, (bucketAgg (x :: xs)).Low = .fin m
            ∧ m ∈ (x :: xs).map (·.Low) ∧ ∀ y ∈ (x :: xs).map (·.Low), m ≤ y)
        ∧ (bucketAgg (x :: xs)).Close
            = .fin (((x :: xs).getLast (List.cons_ne_nil x xs)).Close)
        ∧ (bucketAgg (x :: xs)).Volume = .fin (((x :: xs).map (·.Volume)).sum))
    ∧ bucketAgg [] = ⟨.nan, .nan, .nan, .nan, .fin 0⟩ := by
  refine ⟨?_, ?_, ?_, rfl⟩
  · intro df tr h5 h10 hmax
    rw [resample_data, if_neg (by simp [h5, h10]), if_neg hmax]
  · intro bucketOf b rest k hk
    simp only [resample_agg] at hk ⊢
    rw [List.length_map, List.length_range] at hk
    rw [List.getD_eq_getElem _ _ (by simpa using hk), List.getElem_map,
      List.getElem_range]
  · intro x xs
    refine ⟨rfl, ?_, ?_, ?_, ?_⟩
    · refine ⟨(xs.map (·.High)).foldl max x.High, ?_, ?_, ?_⟩
      · show PyFloat.fin (xs.foldl (fun m y => max m y.High) x.High) = _
        rw [← List.foldl_map]
      · rcases foldl_max_mem x.High (xs.map (·.High)) with h | h
        · rw [h]; exact List.mem_cons_self _ _
        · exact List.mem_cons_of_mem _ h
      · intro y hy
        rcases List.mem_cons.mp hy with rfl | hy
        · exact (le_foldl_max x.High (xs.map (·.High))).1
        · exact (le_foldl_max x.High (xs.map (·.High))).2 y hy
    · refine ⟨(xs.map (·.Low)).foldl min x.Low, ?_, ?_, ?_⟩
      · show PyFloat.fin (xs.foldl (fun m y => min m y.Low) x.Low) = _
        rw [← List.foldl_map]
      · rcases foldl_min_mem x.Low (xs.map (·.Low)) with h | h
        · rw [h]; exact List.mem_cons_self _ _
        · exact List.mem_cons_of_mem _ h
      · intro y hy
        rcases List.mem_cons.mp hy with rfl | hy
        · exact (foldl_min_le x.Low (xs.map (·.Low))).1
        · exact (foldl_min_le x.Low (xs.map (·.Low))).2 y hy
    · show PyFloat.fin ((xs.foldl (fun _ y => y) x).Close) = _
      rw [foldl_last_eq_getLast]
    · show PyFloat.fin (xs.foldl (fun s y => s + y.Volume) x.Volume) = _
      rw [← List.foldl_map, foldl_add_eq, List.map_cons, List.sum_cons]

/-- Witness for C3: the pass-through leg on a 1M request, and the
aggregation leg on a two-bar bucket. -/
theorem resample_semantics_witness :
    resample_data dfConst "1M" = dfConst.map barToRBar
    ∧ (bucketAgg [⟨0, 1, 1, 1, 1, 1⟩, ⟨1, 2, 2, 2, 2, 2⟩]).Open = .fin 1 :=
  ⟨resample_semantics.1 dfConst "1M" (by decide) (by decide) (by decide),
   (resample_semantics.2.2.1 ⟨0, 1, 1, 1, 1, 1⟩ [⟨1, 2, 2, 2, 2, 2⟩]).1⟩

/-- Two bars 14 days apart: the middle week has no bars. -/
def dfGap : List Bar := [⟨0, 1, 1, 1, 1, 1⟩, ⟨14, 2, 2, 2, 2, 2⟩]

/-- Counterexample to C3 as stated: resampling a 5Y series whose two
bars are 14 days apart produces THREE output rows; the middle weekly
bucket contains zero input bars yet yields a synthetic row with NaN
open/high/low/close and volume 0, so "a bucket containing zero input
bars produces no output row" is false of the code (pandas emits the
dense weekly grid). -/
theorem resample_emits_row_for_empty_bucket :
    resample_data dfGap "5Y"
      = [⟨.fin 1, .fin 1, .fin 1, .fin 1, .fin 1⟩,
         ⟨.nan, .nan, .nan, .nan, .fin 0⟩,
         ⟨.fin 2, .fin 2, .fin 2, .fin 2, .fin 2⟩]
    ∧ dfGap.filter (fun x => x.ts / 7 = 1) = [] := by
  exact ⟨by decide, by decide⟩

/-- Rational-level running maximum, seeded with the first close. -/
def runMaxAux (m : ℚ) : List ℚ → List ℚ
  | [] => []
  | c :: t => max m c :: runMaxAux (max m c) t

/-- Rational-level drawdown series against the running maximum. -/
def ddAux (m : ℚ) : List ℚ → List ℚ
  | [] => []
  | c :: t => (c - max m c) / max m c :: ddAux (max m c) t

/-- The expanding maximum of an all-finite series is the rational
running maximum. -/
lemma expanding_max_fin (cs : List ℚ) :
    ∀ m : ℚ, expanding_max (.fin m) (cs.map .fin) = (runMaxAux m cs).map .fin := by
  induction cs with
  | nil => intro m; rfl
  | cons c t ih =>
    intro m
    simp [expanding_max, runMaxAux, pd_isna, pfMax2, ih]

/-- The drawdown column of an all-finite positive series is the
rational drawdown series. -/
lemma drawdown_zip (cs : List ℚ) :
    ∀ m : ℚ, 0 < m → (∀ x ∈ cs, 0 < x) →
      List.zipWith (fun c mm => pfDiv (pfSub c mm) mm)
          (cs.map .fin) ((runMaxAux m cs).map .fin)
        = (ddAux m cs).map .fin := by
  induction cs with
  | nil => intro m _ _; rfl
  | cons c t ih =>
    intro m hm hcs
    have hmc : 0 < max m c := lt_of_lt_of_le hm (le_max_left m c)
    simp only [List.map_cons, runMaxAux, ddAux, List.zipWith_cons_cons]
    congr 1
    · simp [pfSub, pfAdd, pfNeg, pfDiv, hmc.ne', ← sub_eq_add_neg]
    · exact ih (max m c) hmc (fun x hx => hcs x (List.mem_cons_of_mem c hx))

/-- Folding the skip-NaN minimum over finite values is the rational
min-fold. -/
lemma foldl_pfMin2 (ds : List ℚ) :
    ∀ a : ℚ, (ds.map PyFloat.fin).foldl pfMin2 (.fin a) = .fin (ds.foldl min a) := by
  induction ds with
  | nil => intro a; rfl
  | cons x t ih => intro a; simp [pfMin2, ih]

/-- The series minimum of a nonempty all-finite series. -/
lemma series_min_map_fin (d : ℚ) (ds : List ℚ) :
    series_min ((d :: ds).map .fin) = .fin (ds.foldl min d) := by
  have hdrop : dropna ((d :: ds).map .fin) = (d :: ds).map .fin := by
    rw [dropna, List.filter_eq_self]
    intro a ha
    obtain ⟨q, -, rfl⟩ := List.mem_map.mp ha
    rfl
  rw [series_min, hdrop]
  simp only [List.map_cons]
  exact foldl_pfMin2 ds d

/-- A min-fold equals its seed exactly when the seed bounds every
element from below. -/
lemma foldl_min_eq_iff (l : List ℚ) :
    ∀ a : ℚ, l.foldl min a = a ↔ ∀ y ∈ l, a ≤ y := by
  induction l with
  | nil => intro a; simp
  | cons x t ih =>
    intro a
    rw [List.foldl_cons]
    by_cases hax : a ≤ x
    · rw [min_eq_left hax, ih a]
      constructor
      · intro h y hy
        rcases List.mem_cons.mp hy with rfl | hy
        · exact hax
        · exact h y hy
      · intro h y hy
        exact h y (List.mem_cons_of_mem x hy)
    · have hx : x < a := not_le.mp hax
      rw [min_eq_right hx.le]
      constructor
      · intro h
        exfalso
        have hle := (foldl_min_le x t).1
        rw [h] at hle
        exact absurd hle (not_le.mpr hx)
      · intro h
        exact absurd (h x (List.mem_cons_self x t)) hax

/-- Each drawdown of a positive series is nonpositive. -/
lemma ddAux_nonpos (cs : List ℚ) :
    ∀ m : ℚ, 0 < m → (∀ x ∈ cs, 0 < x) → ∀ y ∈ ddAux m cs, y ≤ 0 := by
  induction cs with
  | nil => intro m _ _ y hy; simp [ddAux] at hy
  | cons c t ih =>
    intro m hm hcs y hy
    have hmc : 0 < max m c := lt_of_lt_of_le hm (le_max_left m c)
    simp only [ddAux, List.mem_cons] at hy
    rcases hy with rfl | hy
    · exact div_nonpos_iff.mpr
        (Or.inr ⟨sub_nonpos.mpr (le_max_right m c), hmc.le⟩)
    · exact ih (max m c) hmc (fun x hx => hcs x (List.mem_cons_of_mem c hx)) y hy

/-- All drawdowns of a positive series vanish exactly when the series
never dips below the running seed, i.e. is chained nondecreasing. -/
lemma ddAux_zero_iff (cs : List ℚ) :
    ∀ m : ℚ, 0 < m → (∀ x ∈ cs, 0 < x) →
      ((∀ y ∈ ddAux m cs, y = 0) ↔ List.Chain (· ≤ ·) m cs) := by
  induction cs with
  | nil => intro m _ _; simp [ddAux]
  | cons c t ih =>
    intro m hm hcs
    have hmc : 0 < max m c := lt_of_lt_of_le hm (le_max_left m c)
    simp only [ddAux, List.mem_cons, List.chain_cons, forall_eq_or_imp]
    have hhead : ((c - max m c) / max m c = 0) ↔ m ≤ c := by
      rw [div_eq_zero_iff]
      constructor
      · rintro (h | h)
        · exact max_eq_right_iff.mp (sub_eq_zero.mp h).symm
        · exact absurd h hmc.ne'
      · intro h
        exact Or.inl (by rw [max_eq_right h, sub_self])
    rw [hhead]
    constructor
    · rintro ⟨h1, h2⟩
      refine ⟨h1, ?_⟩
      have hch := (ih (max m c) hmc
        (fun x hx => hcs x (List.mem_cons_of_mem c hx))).mp h2
      rwa [max_eq_right h1] at hch
    · rintro ⟨h1, h2⟩
      refine ⟨h1, ?_⟩
      apply (ih (max m c) hmc
        (fun x hx => hcs x (List.mem_cons_of_mem c hx))).mpr
      rwa [max_eq_right h1]

/-- `calculate_max_drawdown` on a nonempty positive finite close series
computes the min-fold of the rational drawdown series. -/
lemma calculate_max_drawdown_fin (c : ℚ) (cs : List ℚ) (hc : 0 < c)
    (hcs : ∀ x ∈ cs, 0 < x) :
    calculate_max_drawdown ((c :: cs).map .fin)
      = .fin ((ddAux c cs).foldl min 0) := by
  simp only [calculate_max_drawdown, List.map_cons]
  rw [show expanding_max .nan (.fin c :: cs.map .fin)
        = .fin c :: (runMaxAux c cs).map .fin from by
      simp [expanding_max, pd_isna, expanding_max_fin]]
  rw [List.zipWith_cons_cons, drawdown_zip cs c hc hcs]
  rw [show pfDiv (pfSub (.fin c) (.fin c)) (.fin c) = .fin 0 from by
      simp [pfSub, pfAdd, pfNeg, pfDiv, hc.ne']]
  exact series_min_map_fin 0 (ddAux c cs)

/-- C5 (amended): on every nonempty close series of positive prices,
the max-drawdown result is a finite value ≤ 0 and equals 0 exactly when
the close series is nondecreasing.  (Positivity is necessary: see the
counterexample for a negative-price series that decreases yet reports
drawdown 0.) -/
theorem max_drawdown_nonpos_iff_nondecreasing :
    ∀ (c : ℚ) (cs : List ℚ), 0 < c → (∀ x ∈ cs, 0 < x) →
      pf_isFinite (calculate_max_drawdown ((c :: cs).map .fin)) = true
      ∧ pfLe (calculate_max_drawdown ((c :: cs).map .fin)) (.fin 0) = true
      ∧ ((calculate_max_drawdown ((c :: cs).map .fin) = .fin 0)
          ↔ List.Chain' (· ≤ ·) (c :: cs)) := by
  intro c cs hc hcs
  rw [calculate_max_drawdown_fin c cs hc hcs]
  have hnonpos : (ddAux c cs).foldl min 0 ≤ 0 := (foldl_min_le 0 (ddAux c cs)).1
  refine ⟨rfl, ?_, ?_⟩
  · simp [pfLe, hnonpos]
  · rw [PyFloat.fin.injEq]
    show ((ddAux c cs).foldl min 0 = 0) ↔ List.Chain (· ≤ ·) c cs
    constructor
    · intro h
      have hall := (foldl_min_eq_iff (ddAux c cs) 0).mp h
      have hzero : ∀ y ∈ ddAux c cs, y = 0 := fun y hy =>
        le_antisymm (ddAux_nonpos cs c hc hcs y hy) (hall y hy)
      exact (ddAux_zero_iff cs c hc hcs).mp hzero
    · intro h
      have hzero := (ddAux_zero_iff cs c hc hcs).mpr h
      exact (foldl_min_eq_iff (ddAux c cs) 0).mpr
        (fun y hy => (hzero y hy).ge)

/-- Witness for C5: the rising series 1, 2 has finite drawdown ≤ 0 with
the zero-iff-nondecreasing equivalence. -/
theorem max_drawdown_nonpos_iff_nondecreasing_witness :
    pf_isFinite (calculate_max_drawdown (((1 : ℚ) :: [2]).map .fin)) = true
    ∧ pfLe (calculate_max_drawdown (((1 : ℚ) :: [2]).map .fin)) (.fin 0) = true
    ∧ ((calculate_max_drawdown (((1 : ℚ) :: [2]).map .fin) = .fin 0)
        ↔ List.Chain' (· ≤ ·) ((1 : ℚ) :: [2])) :=
  max_drawdown_nonpos_iff_nondecreasing 1 [2] one_pos (by norm_num)

/-- Counterexample to C5 as stated: the close series -1, -2 is strictly
decreasing, yet the code reports max drawdown 0 (the negative running
peak flips the drawdown sign), so "0 iff nondecreasing" is false
without a positivity assumption. -/
theorem max_drawdown_zero_on_negative_decline :
    calculate_max_drawdown ([(-1 : ℚ), -2].map .fin) = .fin 0
    ∧ ¬ List.Chain' (· ≤ ·) [(-1 : ℚ), -2] := by
  constructor
  · norm_num [calculate_max_drawdown, expanding_max, pd_isna, pfMax2,
      series_min, dropna, pd_notnull, pfMin2, pfDiv, pfSub, pfAdd, pfNeg,
      List.filter_cons, List.zipWith_cons_cons, max_def, min_def]
  · norm_num [List.chain'_cons]

end StockEmotion
